import Mathlib

/-!
Shallow embedding of arthur/jobs.py from grimoirelab-kingarthur.

Modeling conventions:
- Python datetimes and unix timestamps are modeled by their epoch value, as Int
  (Python numbers may be zero or negative, which matters for truthiness tests).
- Python None is modeled by Option; Python dict keys the core reads or writes
  become Option fields of a structure, the remaining payload stays opaque.
- The Redis connection and queue (conn.rpush) are modeled by the list of items
  pushed during a call, returned as part of the call result, in push order.
- Exceptions become an explicit error component: a source stream is a list of
  yielded items together with an optional error raised after them; methods that
  can raise return Except or carry an Option error field.
- Perceval backends are modeled by a record of the two capability flags and the
  two fetch operations the core calls; the registry is an association list.
-/

namespace Arthur

/-- Version string of the system (arthur._version.__version__). -/
def arthurVersion : String := "0.1.1"

/-- Exceptions that the code under analysis raises or catches: NotFoundError
(unknown backend), AttributeError (capability/configuration class errors, also
raised by perceval for missing required arguments), ValueError (empty archive
path), and any other execution error. -/
inductive PErr where
  | notFoundError (element : String)
  | attributeError (msg : String)
  | valueError (msg : String)
  | other (msg : String)
deriving Repr, DecidableEq

/-- Perceval item: an open mapping. The core reads the keys uuid, updated_on
and (optionally present) offset, and writes arthur_version and job_id; the
rest of the mapping is opaque payload. -/
structure Item where
  uuid : String
  updated_on : Int
  offset : Option Int
  arthur_version : Option String
  job_id : Option String
  payload : String
deriving Repr, DecidableEq

/-- Backend arguments dictionary: the core only ever writes the keys from_date
and offset (on resume); everything else is opaque payload carried in rest.
from_date holds a datetime, modeled by its epoch value. -/
structure BackendArgs where
  from_date : Option Int
  offset : Option Int
  rest : List (String × String)
deriving Repr, DecidableEq

/-- Archive arguments dictionary: archive_path, fetch_from_archive and
archived_after (the latter modeled by its epoch value). -/
structure ArchiveArgs where
  archive_path : Option String
  fetch_from_archive : Bool
  archived_after : Int
deriving Repr, DecidableEq

/-- Python truthiness of an optional number: None and 0 are falsy. -/
def truthyNum : Option Int → Bool
  | none => false
  | some v => v != 0

/-- Python truthiness of an optional string: None and the empty string are
falsy. -/
def truthyStr : Option String → Bool
  | none => false
  | some s => s != ""

/-- Conversion from a unix epoch value to a datetime
(grimoirelab.toolkit.datetime.unixtime_to_datetime); since datetimes are
modeled by their epoch value, the conversion is the identity on the
representation. -/
def unixtime_to_datetime (t : Int) : Int := t

/-- Result of one source iteration: the items yielded, then an optional
exception raised after them (an exception part-way through a stream is the
same as a stream of the preceding items followed by that exception). -/
abbrev SourceRun := List Item × Option PErr

/-- Perceval backend class as the core uses it: the two capability class
methods and the two module-level fetch operations (perceval.fetch and
perceval.fetch_from_archive applied to this class). fetch receives the
backend arguments and the optional archive manager; fetch_from_archive
receives the backend arguments, the archive manager, the category and the
archived_after value. -/
structure Backend where
  has_archiving : Bool
  has_resuming : Bool
  fetch : BackendArgs → Option String → SourceRun
  fetch_from_archive : BackendArgs → Option String → String → Int → SourceRun

/-- Registry of available Perceval backends, as produced by
perceval.find_backends: a name-to-class association list. -/
abbrev Registry := List (String × Backend)

/-- JobResult: the checkpoint record of a Perceval job. -/
structure JobResult where
  job_id : String
  task_id : String
  backend : String
  category : String
  last_uuid : Option String
  max_date : Option Int
  nitems : Nat
  offset : Option Int
  nresumed : Nat
deriving Repr, DecidableEq

/-- PercevalJob: wrapper for running a Perceval backend. The archive manager
is modeled by the path it was opened from; the Redis connection is modeled by
returning pushed items explicitly from run. -/
structure PercevalJob where
  job_id : String
  task_id : String
  backend : String
  category : String
  bklass : Backend
  qitems : String
  retries : Nat
  archive_manager : Option String
  result : JobResult

/-- PercevalJob constructor: looks the backend name up in the registry
(KeyError becomes NotFoundError) and builds the job with an empty initial
JobResult. -/
def PercevalJob.init (registry : Registry) (job_id task_id backend category qitems : String) :
    Except PErr PercevalJob :=
  match registry.lookup backend with
  | none => .error (.notFoundError backend)
  | some bklass =>
      .ok { job_id := job_id, task_id := task_id, backend := backend,
            category := category, bklass := bklass, qitems := qitems,
            retries := 0, archive_manager := none,
            result := { job_id := job_id, task_id := task_id, backend := backend,
                        category := category, last_uuid := none, max_date := none,
                        nitems := 0, offset := none, nresumed := 0 } }

/-- Embeds PercevalJob.initialize_archive_manager: an empty-string path raises
ValueError; a truthy path opens the archive manager; a None path leaves the
manager untouched. -/
def PercevalJob.init_archive_manager (job : PercevalJob) (archive_path : Option String) :
    Except PErr PercevalJob :=
  if archive_path = some "" then
    .error (.valueError "Archive manager path cannot be empty")
  else if truthyStr archive_path then
    .ok { job with archive_manager := archive_path }
  else
    .ok job

/-- Has the backend archiving support (PercevalJob.has_archiving). -/
def PercevalJob.has_archiving (job : PercevalJob) : Bool :=
  job.bklass.has_archiving

/-- Can the job be resumed when it fails (PercevalJob.has_resuming). -/
def PercevalJob.has_resuming (job : PercevalJob) : Bool :=
  job.bklass.has_resuming

/-- Embeds the metadata decorator on one item: sets the arthur_version and
job_id keys of the item before it is yielded onward. -/
def metadata_item (job : PercevalJob) (item : Item) : Item :=
  { item with arthur_version := some arthurVersion, job_id := some job.job_id }

/-- Embeds the metadata decorator on a whole source stream: each yielded item
is tagged, one item at a time, in order; an exception from the inner stream
passes through unchanged. -/
def metadata_wrap (job : PercevalJob) (raw : SourceRun) : SourceRun :=
  (raw.1.map (metadata_item job), raw.2)

/-- Embeds the private execute method of PercevalJob (decorated by metadata):
chooses the live fetch path when archive_args is absent or fetch_from_archive
is false, and the archive replay path otherwise, then tags every yielded item
with the metadata fields. -/
def PercevalJob.execute_backend (job : PercevalJob) (backend_args : BackendArgs)
    (archive_args : Option ArchiveArgs) : SourceRun :=
  let raw :=
    match archive_args with
    | none => job.bklass.fetch backend_args job.archive_manager
    | some aargs =>
        if !aargs.fetch_from_archive then
          job.bklass.fetch backend_args job.archive_manager
        else
          job.bklass.fetch_from_archive backend_args job.archive_manager
            job.category aargs.archived_after
  metadata_wrap job raw

/-- One iteration of the run loop on the checkpoint record, after the item has
been pushed: increment nitems, overwrite last_uuid, update max_date when the
current value is falsy (None or 0) or strictly smaller than the item's
updated_on, and overwrite offset when the item carries an offset key. -/
def JobResult.update_for_item (r : JobResult) (item : Item) : JobResult :=
  let r1 := { r with nitems := r.nitems + 1, last_uuid := some item.uuid }
  let r2 :=
    if !truthyNum r1.max_date || r1.max_date.getD 0 < item.updated_on then
      { r1 with max_date := some item.updated_on }
    else r1
  match item.offset with
  | some o => { r2 with offset := some o }
  | none => r2

/-- First step of run: when archive arguments are given (a non-empty dict),
initialize the archive manager from their archive_path. -/
def PercevalJob.run_init (job : PercevalJob) (archive_args : Option ArchiveArgs) :
    Except PErr PercevalJob :=
  match archive_args with
  | some aargs => job.init_archive_manager aargs.archive_path
  | none => .ok job

/-- Fresh JobResult installed at the start of a non-resumed run: identifiers
kept, every progress field reset to None or zero. -/
def PercevalJob.fresh_result (job : PercevalJob) : JobResult :=
  { job_id := job.job_id, task_id := job.task_id, backend := job.backend,
    category := job.category, last_uuid := none, max_date := none,
    nitems := 0, offset := none, nresumed := 0 }

/-- Second step of run: on a fresh run install a fresh JobResult and keep the
(copied) arguments unmodified; on a resumed run inject from_date when the
stored max_date is truthy and offset when the stored offset is truthy into the
copied arguments, overwriting any caller-supplied values for those keys, and
increment nresumed. Returns the updated job and the effective arguments. -/
def PercevalJob.run_start (job : PercevalJob) (args : BackendArgs) (resume : Bool) :
    PercevalJob × BackendArgs :=
  if !resume then
    ({ job with result := job.fresh_result }, args)
  else
    let args1 :=
      if truthyNum job.result.max_date then
        { args with from_date := some (unixtime_to_datetime (job.result.max_date.getD 0)) }
      else args
    let args2 :=
      if truthyNum job.result.offset then
        { args1 with offset := job.result.offset }
      else args1
    ({ job with result := { job.result with nresumed := job.result.nresumed + 1 } }, args2)

/-- Outcome of one call to PercevalJob.run: the job after the call (its result
field mutated in place by the call), the items pushed onto the queue by this
call in push order, the arguments actually handed to the fetch path (None when
the call raised before fetching), the caller's backend_args dictionary as the
call leaves it, and the propagated exception when the call raised. -/
structure RunResult where
  job : PercevalJob
  pushed : List Item
  used_args : Option BackendArgs
  caller_args : BackendArgs
  error : Option PErr

/-- Embeds PercevalJob.run. The method copies backend_args (all subsequent
writes target the copy, never the caller's dictionary), initializes the
archive manager when archive arguments are given (raising before touching the
checkpoint on an empty path), resets the result or injects resume parameters,
then iterates the chosen source: each yielded item is pushed onto the queue
and the checkpoint record is updated for it; an exception from the source
propagates after the items yielded before it were processed. -/
def PercevalJob.run (job : PercevalJob) (backend_args : BackendArgs)
    (archive_args : Option ArchiveArgs) (resume : Bool) : RunResult :=
  let args := backend_args
  match job.run_init archive_args with
  | .error e => ⟨job, [], none, backend_args, some e⟩
  | .ok job1 =>
      let start := job1.run_start args resume
      let src := start.1.execute_backend start.2 archive_args
      let final := src.1.foldl JobResult.update_for_item start.1.result
      ⟨{ start.1 with result := final }, src.1, some start.2, backend_args, src.2⟩

/-- Scheduler arguments dictionary: the core only reads max_retries. -/
structure SchedArgs where
  max_retries : Nat
deriving Repr, DecidableEq

/-- Record of one invocation of PercevalJob.run performed by the orchestrator:
the arguments it was called with. -/
structure RunCall where
  backend_args : BackendArgs
  archive_args : Option ArchiveArgs
  resume : Bool
deriving Repr, DecidableEq

/-- Outcome of execute_perceval_job: the returned JobResult or the propagated
exception, the list of run invocations performed (in order, with their
arguments), and the queue contents appended across all attempts. -/
structure ExecOutcome where
  result : Except PErr JobResult
  run_calls : List RunCall
  queue : List Item

/-- Embeds the while loop of execute_perceval_job. Each iteration invokes run;
on success the loop stops; an AttributeError is re-raised as-is; any other
exception increments the failure counter and is re-raised when the backend
cannot resume or the counter reached max_retries, and otherwise the loop
re-enters with resume set to true and the same arguments. -/
def retry_loop (job : PercevalJob) (backend_args : BackendArgs)
    (archive_args : Option ArchiveArgs) (sched_args : SchedArgs)
    (resume : Bool) (failures : Nat) (queue : List Item) (calls : List RunCall) :
    ExecOutcome :=
  let rr := job.run backend_args archive_args resume
  let calls1 := calls ++ [⟨backend_args, archive_args, resume⟩]
  let queue1 := queue ++ rr.pushed
  match rr.error with
  | none => ⟨.ok rr.job.result, calls1, queue1⟩
  | some (.attributeError m) => ⟨.error (.attributeError m), calls1, queue1⟩
  | some e =>
      if h : !rr.job.has_resuming || sched_args.max_retries ≤ failures + 1 then
        ⟨.error e, calls1, queue1⟩
      else
        retry_loop rr.job backend_args archive_args sched_args true (failures + 1)
          queue1 calls1
termination_by sched_args.max_retries - failures
decreasing_by
  simp only [Bool.or_eq_true, Bool.not_eq_true', decide_eq_true_eq, not_or, not_le] at h
  omega

/-- Embeds execute_perceval_job: construct the job (propagating NotFoundError),
reject archive arguments when the backend does not support archiving (a single
AttributeError raised before any run invocation), then enter the retry loop
with resume false and zero failures. The job identifier comes from the current
RQ job and is passed explicitly here. -/
def execute_perceval_job (registry : Registry) (backend : String)
    (backend_args : BackendArgs) (qitems : String) (task_id : String)
    (category : String) (archive_args : Option ArchiveArgs)
    (sched_args : SchedArgs) (job_id : String) : ExecOutcome :=
  match PercevalJob.init registry job_id task_id backend category qitems with
  | .error e => ⟨.error e, [], []⟩
  | .ok job =>
      if !job.has_archiving && archive_args.isSome then
        ⟨.error (.attributeError "archive attributes set but archive is not supported"), [], []⟩
      else
        retry_loop job backend_args archive_args sched_args false 0 [] []

/-! Helper lemmas about the per-item checkpoint update. -/

/-- One update step: nitems increments by one, last_uuid is overwritten, and
the identifier fields and nresumed are untouched. -/
theorem update_for_item_fields (r : JobResult) (i : Item) :
    (r.update_for_item i).nitems = r.nitems + 1 ∧
    (r.update_for_item i).last_uuid = some i.uuid ∧
    (r.update_for_item i).nresumed = r.nresumed ∧
    (r.update_for_item i).job_id = r.job_id ∧
    (r.update_for_item i).task_id = r.task_id ∧
    (r.update_for_item i).backend = r.backend ∧
    (r.update_for_item i).category = r.category := by
  unfold JobResult.update_for_item
  cases i.offset <;> dsimp only <;> split <;> simp

/-- One update step: the new max_date as a function of the old one and the
item's updated_on value. -/
theorem update_for_item_max_date (r : JobResult) (i : Item) :
    (r.update_for_item i).max_date =
      if !truthyNum r.max_date || r.max_date.getD 0 < i.updated_on
      then some i.updated_on else r.max_date := by
  unfold JobResult.update_for_item
  cases i.offset <;> dsimp only <;> split <;> simp_all

/-- Folding the update over a list of items adds the length of the list to
nitems. -/
theorem foldl_update_nitems (l : List Item) (r : JobResult) :
    (l.foldl JobResult.update_for_item r).nitems = r.nitems + l.length := by
  induction l generalizing r with
  | nil => simp
  | cons i t ih =>
      simp only [List.foldl_cons, ih, (update_for_item_fields r i).1, List.length_cons]
      omega

/-- Folding the update over a list of items leaves nresumed and the identifier
fields untouched. -/
theorem foldl_update_preserved (l : List Item) (r : JobResult) :
    (l.foldl JobResult.update_for_item r).nresumed = r.nresumed ∧
    (l.foldl JobResult.update_for_item r).job_id = r.job_id ∧
    (l.foldl JobResult.update_for_item r).task_id = r.task_id ∧
    (l.foldl JobResult.update_for_item r).backend = r.backend ∧
    (l.foldl JobResult.update_for_item r).category = r.category := by
  induction l generalizing r with
  | nil => simp
  | cons i t ih =>
      have h := update_for_item_fields r i
      simp only [List.foldl_cons]
      refine ⟨?_, ?_, ?_, ?_, ?_⟩ <;>
        simp [ih, h.2.2.1, h.2.2.2.1, h.2.2.2.2.1, h.2.2.2.2.2.1, h.2.2.2.2.2.2]

/-- One update step keeps max_date non-decreasing and non-negative, provided
the stored value is non-negative (when set) and the item's updated_on value is
non-negative. -/
theorem update_for_item_max_date_mono (r : JobResult) (i : Item)
    (hr : ∀ d, r.max_date = some d → 0 ≤ d) (hi : 0 ≤ i.updated_on) :
    (∀ d, r.max_date = some d →
      ∃ e, (r.update_for_item i).max_date = some e ∧ d ≤ e) ∧
    (∀ d, (r.update_for_item i).max_date = some d → 0 ≤ d) := by
  rw [update_for_item_max_date] at *
  constructor
  · intro d hd
    split
    · refine ⟨i.updated_on, rfl, ?_⟩
      rename_i hcond
      rcases Bool.or_eq_true _ _ |>.mp hcond with h1 | h2
      · have : r.max_date.getD 0 = d := by rw [hd]; rfl
        have hd0 : d = 0 := by
          simp [truthyNum, hd] at h1
          exact h1
        omega
      · have : r.max_date.getD 0 = d := by rw [hd]; rfl
        rw [this] at h2
        exact le_of_lt (by exact_mod_cast of_decide_eq_true h2)
    · exact ⟨d, hd, le_refl d⟩
  · intro d hd
    split at hd
    · cases hd; exact hi
    · exact hr d hd

/-- Folding the update over a list of items keeps max_date non-decreasing and
non-negative, provided the stored value is non-negative (when set) and every
item's updated_on value is non-negative. -/
theorem foldl_update_max_date_mono (l : List Item) (r : JobResult)
    (hr : ∀ d, r.max_date = some d → 0 ≤ d)
    (hl : ∀ i ∈ l, 0 ≤ i.updated_on) :
    (∀ d, r.max_date = some d →
      ∃ e, (l.foldl JobResult.update_for_item r).max_date = some e ∧ d ≤ e) ∧
    (∀ d, (l.foldl JobResult.update_for_item r).max_date = some d → 0 ≤ d) := by
  induction l generalizing r with
  | nil => exact ⟨fun d hd => ⟨d, hd, le_refl d⟩, hr⟩
  | cons i t ih =>
      have hi : 0 ≤ i.updated_on := hl i (List.mem_cons_self i t)
      have hstep := update_for_item_max_date_mono r i hr hi
      have hrec := ih (r.update_for_item i) hstep.2
        (fun j hj => hl j (List.mem_cons_of_mem i hj))
      refine ⟨?_, ?_⟩
      · intro d hd
        obtain ⟨e, he, hde⟩ := hstep.1 d hd
        obtain ⟨f, hf, hef⟩ := hrec.1 e he
        exact ⟨f, by simpa using hf, le_trans hde hef⟩
      · intro d hd
        exact hrec.2 d (by simpa using hd)

/-! Helper lemmas about the steps of run. -/

/-- Archive-manager initialization only touches the archive_manager field:
every other field of the job, the checkpoint record included, is unchanged. -/
theorem run_init_ok (job : PercevalJob) (aa : Option ArchiveArgs) (j1 : PercevalJob)
    (h : job.run_init aa = .ok j1) :
    j1.result = job.result ∧ j1.bklass = job.bklass ∧ j1.job_id = job.job_id ∧
    j1.task_id = job.task_id ∧ j1.backend = job.backend ∧
    j1.category = job.category ∧ j1.qitems = job.qitems := by
  unfold PercevalJob.run_init PercevalJob.init_archive_manager at h
  cases aa with
  | none => cases h; exact ⟨rfl, rfl, rfl, rfl, rfl, rfl, rfl⟩
  | some a =>
      by_cases h1 : a.archive_path = some ""
      · simp [h1] at h
      · simp only [h1, if_false] at h
        split at h <;> (cases h; exact ⟨rfl, rfl, rfl, rfl, rfl, rfl, rfl⟩)

/-- The reset-or-inject step only touches the result field of the job. -/
theorem run_start_job_fields (job : PercevalJob) (args : BackendArgs) (resume : Bool) :
    ((job.run_start args resume).1.bklass = job.bklass) ∧
    ((job.run_start args resume).1.job_id = job.job_id) ∧
    ((job.run_start args resume).1.task_id = job.task_id) ∧
    ((job.run_start args resume).1.backend = job.backend) ∧
    ((job.run_start args resume).1.category = job.category) ∧
    ((job.run_start args resume).1.archive_manager = job.archive_manager) := by
  unfold PercevalJob.run_start
  cases resume <;> simp

/-- A run call never changes the backend class of the job, so the capability
queries after the call agree with those before it. -/
theorem run_bklass (job : PercevalJob) (ba : BackendArgs)
    (aa : Option ArchiveArgs) (resume : Bool) :
    (job.run ba aa resume).job.bklass = job.bklass := by
  unfold PercevalJob.run
  cases h : job.run_init aa with
  | error e => rfl
  | ok j1 =>
      dsimp only
      rw [(run_start_job_fields j1 ba resume).1, (run_init_ok job aa j1 h).2.1]

/-- Every run invocation the retry loop performs after its entry call reuses
the same backend and archive arguments, with resume set to true; the entry
call itself uses the entry resume flag. -/
theorem retry_loop_calls_shape (job : PercevalJob) (ba : BackendArgs)
    (aa : Option ArchiveArgs) (sa : SchedArgs) (resume : Bool) (failures : Nat)
    (queue : List Item) (calls : List RunCall) :
    ∃ tail : List RunCall,
      (retry_loop job ba aa sa resume failures queue calls).run_calls
        = calls ++ ⟨ba, aa, resume⟩ :: tail ∧
      ∀ c ∈ tail, c = ⟨ba, aa, true⟩ := by
  induction job, ba, aa, sa, resume, failures, queue, calls using retry_loop.induct with
  | case1 job ba aa sa resume failures queue calls rr herr =>
      refine ⟨[], ?_, by simp⟩
      rw [retry_loop]
      simp only [show (job.run ba aa resume).error = none from herr]
  | case2 job ba aa sa resume failures queue calls rr m herr =>
      refine ⟨[], ?_, by simp⟩
      rw [retry_loop]
      simp only [show (job.run ba aa resume).error = some (PErr.attributeError m) from herr]
  | case3 job ba aa sa resume failures queue calls rr e hne herr hcond =>
      refine ⟨[], ?_, by simp⟩
      rw [retry_loop]
      simp only [show (job.run ba aa resume).error = some e from herr]
      cases e with
      | attributeError m => exact absurd rfl (hne m)
      | notFoundError s => rw [dif_pos hcond]
      | valueError s => rw [dif_pos hcond]
      | other s => rw [dif_pos hcond]
  | case4 job ba aa sa resume failures queue calls rr calls1 queue1 e hne herr hcond ih =>
      obtain ⟨tail, htail, hmem⟩ := ih
      refine ⟨⟨ba, aa, true⟩ :: tail, ?_, ?_⟩
      · rw [retry_loop]
        simp only [show (job.run ba aa resume).error = some e from herr]
        cases e with
        | attributeError m => exact absurd rfl (hne m)
        | notFoundError s =>
            rw [dif_neg hcond, htail]
            show (calls ++ [(⟨ba, aa, resume⟩ : RunCall)]) ++ (⟨ba, aa, true⟩ : RunCall) :: tail = _
            simp
        | valueError s =>
            rw [dif_neg hcond, htail]
            show (calls ++ [(⟨ba, aa, resume⟩ : RunCall)]) ++ (⟨ba, aa, true⟩ : RunCall) :: tail = _
            simp
        | other s =>
            rw [dif_neg hcond, htail]
            show (calls ++ [(⟨ba, aa, resume⟩ : RunCall)]) ++ (⟨ba, aa, true⟩ : RunCall) :: tail = _
            simp
      · intro c hc
        rcases List.mem_cons.mp hc with h1 | h2
        · exact h1
        · exact hmem c h2

/-- Characterization of a run call whose archive initialization succeeds: the
whole outcome, as one equation, in terms of the reset-or-inject step and the
chosen source stream. -/
theorem run_ok_spec (job : PercevalJob) (ba : BackendArgs) (aa : Option ArchiveArgs)
    (resume : Bool) (j1 : PercevalJob) (hok : job.run_init aa = .ok j1) :
    job.run ba aa resume =
      { job := { (j1.run_start ba resume).1 with
                 result := ((j1.run_start ba resume).1.execute_backend
                     (j1.run_start ba resume).2 aa).1.foldl JobResult.update_for_item
                     (j1.run_start ba resume).1.result },
        pushed := ((j1.run_start ba resume).1.execute_backend (j1.run_start ba resume).2 aa).1,
        used_args := some (j1.run_start ba resume).2,
        caller_args := ba,
        error := ((j1.run_start ba resume).1.execute_backend (j1.run_start ba resume).2 aa).2 } := by
  unfold PercevalJob.run
  rw [hok]

/-- Characterization of a fresh (non-resumed) reset step. -/
theorem run_start_false (job : PercevalJob) (args : BackendArgs) :
    job.run_start args false = ({ job with result := job.fresh_result }, args) := rfl

/-- Characterization of the resume injection step: from_date is overwritten
exactly when the stored max_date is truthy, offset exactly when the stored
offset is truthy, the rest of the arguments is untouched, and nresumed is
incremented. -/
theorem run_start_true (job : PercevalJob) (args : BackendArgs) :
    (job.run_start args true).2.from_date
      = (if truthyNum job.result.max_date
         then some (unixtime_to_datetime (job.result.max_date.getD 0))
         else args.from_date) ∧
    (job.run_start args true).2.offset
      = (if truthyNum job.result.offset then job.result.offset else args.offset) ∧
    (job.run_start args true).2.rest = args.rest ∧
    (job.run_start args true).1.result
      = { job.result with nresumed := job.result.nresumed + 1 } := by
  unfold PercevalJob.run_start
  by_cases h1 : truthyNum job.result.max_date <;>
    by_cases h2 : truthyNum job.result.offset <;>
      simp [h1, h2]

/-! Concrete fixtures used by witnesses and counterexamples. -/

/-- Item fixture builder: a raw source item, not yet tagged. -/
def mkItem (u : String) (upd : Int) (off : Option Int) : Item :=
  { uuid := u, updated_on := upd, offset := off, arthur_version := none,
    job_id := none, payload := "raw" }

/-- Backend arguments fixture. -/
def baX : BackendArgs :=
  { from_date := none, offset := none, rest := [("uri", "repo")] }

/-- Backend fixture that yields two items and succeeds, on every path. -/
def bkTwo : Backend :=
  { has_archiving := true, has_resuming := true,
    fetch := fun _ _ => ([mkItem "a" 3 none, mkItem "b" 5 (some 7)], none),
    fetch_from_archive := fun _ _ _ _ => ([mkItem "a" 3 none], none) }

/-- Checkpoint fixture holding earlier progress. -/
def dirtyResult : JobResult :=
  { job_id := "j1", task_id := "t1", backend := "git", category := "commit",
    last_uuid := some "z", max_date := some 9, nitems := 4, offset := some 2,
    nresumed := 1 }

/-- Job fixture wired to bkTwo, with a dirty checkpoint. -/
def jobTwo : PercevalJob :=
  { job_id := "j1", task_id := "t1", backend := "git", category := "commit",
    bklass := bkTwo, qitems := "items", retries := 0, archive_manager := none,
    result := dirtyResult }

/-- Backend fixture that yields one item and then raises a transient error. -/
def bkFailAfterOne : Backend :=
  { has_archiving := true, has_resuming := true,
    fetch := fun _ _ => ([mkItem "a" 3 none], some (.other "boom")),
    fetch_from_archive := fun _ _ _ _ => ([], none) }

/-- Job fixture wired to bkFailAfterOne, with a clean checkpoint. -/
def jobFail : PercevalJob :=
  { job_id := "j1", task_id := "t1", backend := "git", category := "commit",
    bklass := bkFailAfterOne, qitems := "items", retries := 0,
    archive_manager := none,
    result := { job_id := "j1", task_id := "t1", backend := "git",
                category := "commit", last_uuid := none, max_date := none,
                nitems := 0, offset := none, nresumed := 0 } }

/-- C5: for every run call whose archive initialization succeeds, each loop
iteration performs exactly one queue append and exactly one nitems increment,
so after the run loop (successful or not) nitems equals the number of items
appended since the last fresh start: the counter grows by exactly the number
of pushed items, from zero on a fresh run and from its prior value on a
resumed run. -/
theorem C5_nitems_equals_appends (job : PercevalJob) (ba : BackendArgs)
    (aa : Option ArchiveArgs) (resume : Bool) (j1 : PercevalJob)
    (hok : job.run_init aa = .ok j1) :
    (job.run ba aa resume).job.result.nitems
      = (if resume then job.result.nitems else 0)
        + (job.run ba aa resume).pushed.length := by
  rw [run_ok_spec job ba aa resume j1 hok]
  dsimp only
  rw [foldl_update_nitems]
  cases resume with
  | false => rw [run_start_false]; simp [PercevalJob.fresh_result]
  | true =>
      rw [(run_start_true j1 ba).2.2.2]
      dsimp only
      rw [(run_init_ok job aa j1 hok).1]
      simp

/-- Witness for C5 on the two-item backend fixture, run fresh. -/
theorem C5_witness :
    (jobTwo.run baX none false).job.result.nitems
      = (if false then jobTwo.result.nitems else 0)
        + (jobTwo.run baX none false).pushed.length :=
  C5_nitems_equals_appends jobTwo baX none false jobTwo rfl

/-- C7: a run call with resume false (whose archive initialization succeeds)
resets every progress field of the checkpoint to empty or zero regardless of
prior state, keeps the immutable identifiers, and hands the caller-supplied
arguments to the fetch path unmodified; the checkpoint after the call is the
fold of the per-item update over the pushed items starting from that reset
record, so nresumed in particular stays zero. -/
theorem C7_fresh_run_resets (job : PercevalJob) (ba : BackendArgs)
    (aa : Option ArchiveArgs) (j1 : PercevalJob)
    (hok : job.run_init aa = .ok j1) :
    (job.run ba aa false).used_args = some ba ∧
    (job.run ba aa false).job.result
      = (job.run ba aa false).pushed.foldl JobResult.update_for_item
          { job_id := job.job_id, task_id := job.task_id, backend := job.backend,
            category := job.category, last_uuid := none, max_date := none,
            nitems := 0, offset := none, nresumed := 0 } ∧
    (job.run ba aa false).job.result.nresumed = 0 ∧
    (job.run ba aa false).job.result.job_id = job.job_id ∧
    (job.run ba aa false).job.result.task_id = job.task_id ∧
    (job.run ba aa false).job.result.backend = job.backend ∧
    (job.run ba aa false).job.result.category = job.category := by
  have hids := run_init_ok job aa j1 hok
  rw [run_ok_spec job ba aa false j1 hok]
  rw [run_start_false]
  dsimp only
  unfold PercevalJob.fresh_result
  rw [hids.2.2.1, hids.2.2.2.1, hids.2.2.2.2.1, hids.2.2.2.2.2.1]
  refine ⟨rfl, rfl, ?_, ?_, ?_, ?_, ?_⟩
  · exact (foldl_update_preserved _ _).1
  · exact (foldl_update_preserved _ _).2.1
  · exact (foldl_update_preserved _ _).2.2.1
  · exact (foldl_update_preserved _ _).2.2.2.1
  · exact (foldl_update_preserved _ _).2.2.2.2

/-- Witness for C7 on the two-item backend fixture with a dirty prior
checkpoint. -/
theorem C7_witness :
    (jobTwo.run baX none false).used_args = some baX ∧
    (jobTwo.run baX none false).job.result
      = (jobTwo.run baX none false).pushed.foldl JobResult.update_for_item
          { job_id := jobTwo.job_id, task_id := jobTwo.task_id,
            backend := jobTwo.backend, category := jobTwo.category,
            last_uuid := none, max_date := none, nitems := 0, offset := none,
            nresumed := 0 } ∧
    (jobTwo.run baX none false).job.result.nresumed = 0 ∧
    (jobTwo.run baX none false).job.result.job_id = jobTwo.job_id ∧
    (jobTwo.run baX none false).job.result.task_id = jobTwo.task_id ∧
    (jobTwo.run baX none false).job.result.backend = jobTwo.backend ∧
    (jobTwo.run baX none false).job.result.category = jobTwo.category :=
  C7_fresh_run_resets jobTwo baX none jobTwo rfl

/-- C3: when a run call (whose archive initialization succeeds) propagates an
exception, the exception is exactly the one the source iteration raised,
unmodified, and at propagation the checkpoint equals the fold of the per-item
update over exactly the items pushed before the failure, starting from the
post-reset-or-inject record: partial progress is preserved, never rolled
back. -/
theorem C3_error_propagates_progress_kept (job : PercevalJob) (ba : BackendArgs)
    (aa : Option ArchiveArgs) (resume : Bool) (j1 : PercevalJob) (e : PErr)
    (hok : job.run_init aa = .ok j1)
    (herr : (job.run ba aa resume).error = some e) :
    ((j1.run_start ba resume).1.execute_backend (j1.run_start ba resume).2 aa).2
        = some e ∧
    (job.run ba aa resume).pushed
      = ((j1.run_start ba resume).1.execute_backend (j1.run_start ba resume).2 aa).1 ∧
    (job.run ba aa resume).job.result
      = (job.run ba aa resume).pushed.foldl JobResult.update_for_item
          (j1.run_start ba resume).1.result := by
  rw [run_ok_spec job ba aa resume j1 hok] at herr ⊢
  exact ⟨herr, rfl, rfl⟩

/-- Witness for C3 on the backend fixture that fails after one item. -/
theorem C3_witness :
    ((jobFail.run_start baX false).1.execute_backend
        (jobFail.run_start baX false).2 none).2 = some (.other "boom") ∧
    (jobFail.run baX none false).pushed
      = ((jobFail.run_start baX false).1.execute_backend
          (jobFail.run_start baX false).2 none).1 ∧
    (jobFail.run baX none false).job.result
      = (jobFail.run baX none false).pushed.foldl JobResult.update_for_item
          (jobFail.run_start baX false).1.result :=
  C3_error_propagates_progress_kept jobFail baX none false jobFail
    (.other "boom") rfl rfl

/-- C9: every item a run call forwards carries the version tag and the owning
job's identifier, inserted one item at a time before the item is pushed, on
the live-fetch path and on the archive-replay path alike (the archive
arguments are arbitrary here, so both paths are covered). -/
theorem C9_metadata_on_every_item (job : PercevalJob) (ba : BackendArgs)
    (aa : Option ArchiveArgs) (resume : Bool) (item : Item)
    (h : item ∈ (job.run ba aa resume).pushed) :
    item.arthur_version = some arthurVersion ∧
    item.job_id = some job.job_id := by
  unfold PercevalJob.run at h
  cases hinit : job.run_init aa with
  | error e => rw [hinit] at h; simp at h
  | ok j1 =>
      rw [hinit] at h
      dsimp only at h
      unfold PercevalJob.execute_backend metadata_wrap at h
      dsimp only at h
      obtain ⟨raw, hraw, hitem⟩ := List.mem_map.mp h
      have hid : (j1.run_start ba resume).1.job_id = job.job_id := by
        rw [(run_start_job_fields j1 ba resume).2.1,
            (run_init_ok job aa j1 hinit).2.2.1]
      constructor
      · rw [hitem.symm]; rfl
      · rw [hitem.symm]
        show some (j1.run_start ba resume).1.job_id = some job.job_id
        rw [hid]

/-- Item fixture: the first item of bkTwo after tagging. -/
def iTagged : Item :=
  { uuid := "a", updated_on := 3, offset := none,
    arthur_version := some arthurVersion, job_id := some "j1",
    payload := "raw" }

/-- Witness for C9: the first item pushed by the two-item fixture run carries
both metadata fields. -/
theorem C9_witness :
    iTagged ∈ (jobTwo.run baX none false).pushed ∧
    iTagged.arthur_version = some arthurVersion ∧
    iTagged.job_id = some jobTwo.job_id := by
  have hmem : iTagged ∈ (jobTwo.run baX none false).pushed := by decide
  have h := C9_metadata_on_every_item jobTwo baX none false iTagged hmem
  exact ⟨hmem, h.1, h.2⟩

/-- Boolean non-decreasing comparison on optional timestamps: an unset value
is below everything, a set value must stay set and not shrink. -/
def opt_mono (a b : Option Int) : Bool :=
  match a with
  | none => true
  | some x =>
      match b with
      | none => false
      | some y => x ≤ y

/-- Boolean non-negativity of an optional timestamp. -/
def opt_nonneg (a : Option Int) : Bool :=
  match a with
  | none => true
  | some x => 0 ≤ x

/-- Backend fixture that returns no items. -/
def bkEmpty : Backend :=
  { has_archiving := true, has_resuming := true,
    fetch := fun _ _ => ([], none),
    fetch_from_archive := fun _ _ _ _ => ([], none) }

/-- Checkpoint fixture whose progress values are stored as zero: set, but
falsy under Python truthiness. -/
def zeroResult : JobResult :=
  { job_id := "j1", task_id := "t1", backend := "git", category := "commit",
    last_uuid := some "z", max_date := some 0, nitems := 3, offset := some 0,
    nresumed := 0 }

/-- Job fixture wired to bkEmpty with the zero-valued checkpoint. -/
def jobZero : PercevalJob :=
  { job_id := "j1", task_id := "t1", backend := "git", category := "commit",
    bklass := bkEmpty, qitems := "items", retries := 0, archive_manager := none,
    result := zeroResult }

/-- C2 counterexample: a resumed run whose stored max_date and offset are both
set (to 0) injects neither key — the fetch receives the caller's arguments
unchanged, from_date and offset still None — because the code tests Python
truthiness, not set-ness, and 0 is falsy; nresumed is still incremented. -/
theorem C2_counterexample :
    jobZero.result.max_date = some 0 ∧
    jobZero.result.offset = some 0 ∧
    (jobZero.run baX none true).used_args = some baX ∧
    baX.from_date = none ∧
    baX.offset = none ∧
    (jobZero.run baX none true).job.result.nresumed
      = jobZero.result.nresumed + 1 := by decide

/-- C2 amended: for every resumed run call whose archive initialization
succeeds, the fetch receives the caller's arguments with from_date overwritten
by the stored max_date (converted from the stored epoch value) exactly when
that value is truthy (set and nonzero), offset overwritten by the stored
offset exactly when that value is truthy (set and nonzero), everything else
untouched; nresumed is incremented by exactly one. -/
theorem C2_resume_injection (job : PercevalJob) (ba : BackendArgs)
    (aa : Option ArchiveArgs) (j1 : PercevalJob)
    (hok : job.run_init aa = .ok j1) :
    ∃ ua, (job.run ba aa true).used_args = some ua ∧
      ua.from_date = (if truthyNum job.result.max_date
          then some (unixtime_to_datetime (job.result.max_date.getD 0))
          else ba.from_date) ∧
      ua.offset = (if truthyNum job.result.offset
          then job.result.offset else ba.offset) ∧
      ua.rest = ba.rest ∧
      (job.run ba aa true).job.result.nresumed = job.result.nresumed + 1 := by
  have hres := (run_init_ok job aa j1 hok).1
  rw [run_ok_spec job ba aa true j1 hok]
  dsimp only
  refine ⟨(j1.run_start ba true).2, rfl, ?_, ?_, ?_, ?_⟩
  · rw [(run_start_true j1 ba).1, hres]
  · rw [(run_start_true j1 ba).2.1, hres]
  · exact (run_start_true j1 ba).2.2.1
  · rw [(foldl_update_preserved _ _).1, (run_start_true j1 ba).2.2.2]
    dsimp only
    rw [hres]

/-- Witness for C2 amended: resumed run on the two-item fixture with truthy
stored max_date 9 and offset 2, both injected over the caller's None values,
and nresumed incremented. -/
theorem C2_witness :
    (jobTwo.run baX none true).used_args
        = some { from_date := some 9, offset := some 2,
                 rest := [("uri", "repo")] } ∧
    (jobTwo.run baX none true).job.result.nresumed
        = jobTwo.result.nresumed + 1 := by
  obtain ⟨⟨f, o, r⟩, h1, h2, h3, h4, h5⟩ :=
    C2_resume_injection jobTwo baX none jobTwo rfl
  refine ⟨?_, h5⟩
  rw [h1]
  have hf : f = some 9 := by
    simpa [jobTwo, dirtyResult, baX, truthyNum, unixtime_to_datetime] using h2
  have ho : o = some 2 := by
    simpa [jobTwo, dirtyResult, baX, truthyNum] using h3
  have hr : r = [("uri", "repo")] := by simpa [baX] using h4
  rw [hf, ho, hr]

/-- Backend fixture yielding an item with updated_on 0 and then one with a
negative updated_on (a pre-1970 timestamp). -/
def bkNeg : Backend :=
  { has_archiving := true, has_resuming := true,
    fetch := fun _ _ => ([mkItem "a" 0 none, mkItem "b" (-1) none], none),
    fetch_from_archive := fun _ _ _ _ => ([], none) }

/-- Job fixture wired to bkNeg. -/
def jobNeg : PercevalJob :=
  { job_id := "j1", task_id := "t1", backend := "git", category := "commit",
    bklass := bkNeg, qitems := "items", retries := 0, archive_manager := none,
    result := { job_id := "j1", task_id := "t1", backend := "git",
                category := "commit", last_uuid := none, max_date := none,
                nitems := 0, offset := none, nresumed := 0 } }

/-- C4 counterexample: within one fresh run the checkpoint's max_date moves
from some 0 (after the first item) down to some (-1) (after the second): the
per-item update treats a stored 0 as unset (Python falsiness) and overwrites
it although the current value is neither unset nor strictly smaller than the
item's updated_on, so max_date is not monotonic non-decreasing. -/
theorem C4_counterexample :
    (jobNeg.fresh_result.update_for_item (mkItem "a" 0 none)).max_date
        = some 0 ∧
    ((jobNeg.fresh_result.update_for_item (mkItem "a" 0 none)).update_for_item
        (mkItem "b" (-1) none)).max_date = some (-1) ∧
    (jobNeg.run baX none false).job.result.max_date = some (-1) ∧
    ¬ ((0 : Int) ≤ -1) := by decide

/-- C4 amended: max_date is monotonic non-decreasing across a resumed run —
which also never resets it — provided the stored value is non-negative (when
set) and every item forwarded by the run has a non-negative updated_on; the
non-negativity is preserved, so the invariant chains across the job's
lifetime. Only the Python-falsy stored value 0 can ever be overwritten by a
smaller (necessarily negative) updated_on, which the hypotheses rule out. -/
theorem C4_max_date_monotone (job : PercevalJob) (ba : BackendArgs)
    (aa : Option ArchiveArgs) (j1 : PercevalJob)
    (hok : job.run_init aa = .ok j1)
    (hprev : opt_nonneg job.result.max_date = true)
    (hitems : ∀ i ∈ (job.run ba aa true).pushed, 0 ≤ i.updated_on) :
    opt_mono job.result.max_date (job.run ba aa true).job.result.max_date
        = true ∧
    opt_nonneg (job.run ba aa true).job.result.max_date = true := by
  have hres := (run_init_ok job aa j1 hok).1
  have hstart : (j1.run_start ba true).1.result.max_date = job.result.max_date := by
    rw [(run_start_true j1 ba).2.2.2]
    dsimp only
    rw [hres]
  rw [run_ok_spec job ba aa true j1 hok] at hitems ⊢
  dsimp only at hitems ⊢
  have hr : ∀ d, (j1.run_start ba true).1.result.max_date = some d → 0 ≤ d := by
    intro d hd
    rw [hstart] at hd
    rw [hd] at hprev
    simpa [opt_nonneg] using hprev
  have h := foldl_update_max_date_mono
    ((j1.run_start ba true).1.execute_backend (j1.run_start ba true).2 aa).1
    ((j1.run_start ba true).1.result) hr hitems
  constructor
  · cases hmd : job.result.max_date with
    | none => simp [opt_mono]
    | some d =>
        obtain ⟨e, he, hde⟩ := h.1 d (by rw [hstart, hmd])
        rw [he]
        simpa [opt_mono] using hde
  · cases hmd : (((j1.run_start ba true).1.execute_backend
        (j1.run_start ba true).2 aa).1.foldl JobResult.update_for_item
        (j1.run_start ba true).1.result).max_date with
    | none => simp [opt_nonneg]
    | some d =>
        have := h.2 d hmd
        simpa [opt_nonneg, hmd] using this

/-- Witness for C4 amended: resumed run on the two-item fixture, stored
max_date 9, items at 3 and 5, all non-negative. -/
theorem C4_witness :
    opt_mono jobTwo.result.max_date
        (jobTwo.run baX none true).job.result.max_date = true ∧
    opt_nonneg (jobTwo.run baX none true).job.result.max_date = true :=
  C4_max_date_monotone jobTwo baX none jobTwo rfl (by decide) (by decide)

/-- Archive arguments fixture with an empty-string path. -/
def aaEmptyPath : ArchiveArgs :=
  { archive_path := some "", fetch_from_archive := false, archived_after := 0 }

/-- Job fixture equal to the constructor's output for the bkTwo registry. -/
def jobC8 : PercevalJob :=
  { job_id := "j1", task_id := "t1", backend := "git", category := "commit",
    bklass := bkTwo, qitems := "items", retries := 0, archive_manager := none,
    result := { job_id := "j1", task_id := "t1", backend := "git",
                category := "commit", last_uuid := none, max_date := none,
                nitems := 0, offset := none, nresumed := 0 } }

/-- C8 counterexample: job construction succeeds — the constructor never sees
the archive configuration, so an empty-string archive path cannot make it
fail, and no archive manager is opened there; the ValueError only arises when
run is invoked with the archive arguments. The claim's failure point (job
construction) is therefore wrong. -/
theorem C8_counterexample :
    PercevalJob.init [("git", bkTwo)] "j1" "t1" "git" "commit" "items"
        = .ok jobC8 ∧
    jobC8.archive_manager = none ∧
    (jobC8.run baX (some aaEmptyPath) false).error
        = some (.valueError "Archive manager path cannot be empty") := by
  refine ⟨rfl, rfl, ?_⟩
  decide

/-- C8 amended: supplying an empty-string archive path is a configuration
error that fails at the start of every run call that receives the archive
arguments — raising ValueError before any fetch attempt and before the
checkpoint is touched, regardless of fetchFromArchive (and of resume) — and
is distinct from the no-archive case: with a None path no error is raised and
the archive manager stays unset. -/
theorem C8_empty_path_fails_at_run (job : PercevalJob) (ba : BackendArgs)
    (ff : Bool) (aft : Int) (resume : Bool) :
    (job.run ba (some ⟨some "", ff, aft⟩) resume).error
        = some (.valueError "Archive manager path cannot be empty") ∧
    (job.run ba (some ⟨some "", ff, aft⟩) resume).pushed = [] ∧
    (job.run ba (some ⟨some "", ff, aft⟩) resume).used_args = none ∧
    (job.run ba (some ⟨some "", ff, aft⟩) resume).job.result = job.result ∧
    job.init_archive_manager none = .ok job := by
  refine ⟨?_, ?_, ?_, ?_, rfl⟩ <;> rfl

/-- Backend fixture that declares no archiving support. -/
def bkNoArchive : Backend :=
  { has_archiving := false, has_resuming := true,
    fetch := fun _ _ => ([], none),
    fetch_from_archive := fun _ _ _ _ => ([], none) }

/-- Plain archive arguments fixture with a non-empty path. -/
def aaPlain : ArchiveArgs :=
  { archive_path := some "/tmp/archive", fetch_from_archive := false,
    archived_after := 0 }

/-- Scheduler arguments fixture. -/
def saX : SchedArgs := { max_retries := 3 }

/-- C6: when the registry resolves the backend to a class without archiving
support and archive arguments are supplied, the orchestrator raises the
configuration AttributeError exactly once, invoking run zero times and
fetching no item. -/
theorem C6_archive_rejected_before_run (registry : Registry) (backend : String)
    (ba : BackendArgs) (qitems task_id category : String)
    (aargs : Option ArchiveArgs) (sa : SchedArgs) (job_id : String)
    (bk : Backend) (hlookup : registry.lookup backend = some bk)
    (hnoarch : bk.has_archiving = false) (hsome : aargs.isSome = true) :
    execute_perceval_job registry backend ba qitems task_id category aargs sa
        job_id
      = ⟨.error (.attributeError
            "archive attributes set but archive is not supported"), [], []⟩ := by
  unfold execute_perceval_job PercevalJob.init
  rw [hlookup]
  dsimp only
  rw [if_pos]
  simp [PercevalJob.has_archiving, hnoarch, hsome]

/-- Witness for C6 on a non-archiving backend with archive arguments set. -/
theorem C6_witness :
    execute_perceval_job [("git", bkNoArchive)] "git" baX "items" "t1" "commit"
        (some aaPlain) saX "j1"
      = ⟨.error (.attributeError
            "archive attributes set but archive is not supported"), [], []⟩ :=
  C6_archive_rejected_before_run [("git", bkNoArchive)] "git" baX "items" "t1"
    "commit" (some aaPlain) saX "j1" bkNoArchive rfl rfl rfl

/-- C10: run leaves the caller's backend_args dictionary unchanged (all
injection happens on the copy taken at entry), and every run invocation the
retry loop performs — the initial attempt and every retry — passes the same
caller-supplied backend_args. -/
theorem C10_caller_args_unchanged (job : PercevalJob) (ba : BackendArgs)
    (aa : Option ArchiveArgs) (resume : Bool) (sa : SchedArgs) (failures : Nat)
    (queue : List Item) (calls : List RunCall) :
    (job.run ba aa resume).caller_args = ba ∧
    ∀ c ∈ (retry_loop job ba aa sa resume failures queue calls).run_calls.drop
        calls.length, c.backend_args = ba := by
  constructor
  · unfold PercevalJob.run
    cases h : job.run_init aa <;> rfl
  · obtain ⟨tail, htail, hmem⟩ :=
      retry_loop_calls_shape job ba aa sa resume failures queue calls
    rw [htail, List.drop_left]
    intro c hc
    rcases List.mem_cons.mp hc with h1 | h2
    · rw [h1]
    · rw [hmem c h2]

/-- Witness for C10: a single successful attempt on the two-item fixture; the
caller's arguments come back unchanged and the only recorded run call used
them. -/
theorem C10_witness :
    (jobTwo.run baX none false).caller_args = baX ∧
    (⟨baX, none, false⟩ : RunCall).backend_args = baX := by
  have h := C10_caller_args_unchanged jobTwo baX none false saX 0 [] []
  refine ⟨h.1, ?_⟩
  have hloop : retry_loop jobTwo baX none saX false 0 [] []
      = ⟨.ok (jobTwo.run baX none false).job.result, [⟨baX, none, false⟩],
         (jobTwo.run baX none false).pushed⟩ := by
    rw [retry_loop]
    simp only [show (jobTwo.run baX none false).error = none from rfl]
    rfl
  exact h.2 ⟨baX, none, false⟩ (by rw [hloop]; simp)

/-- C1: one step of the orchestrator's retry loop. An AttributeError from run
is re-raised as-is, never retried, regardless of the remaining budget (the
conclusion holds for every failures value and every max_retries); any other
exception increments the failure counter and is re-raised when the backend
cannot resume or the counter has reached max_retries, and otherwise the loop
invokes run again with resume true and the same backend and archive
arguments. -/
theorem C1_retry_policy (job : PercevalJob) (ba : BackendArgs)
    (aa : Option ArchiveArgs) (sa : SchedArgs) (resume : Bool) (failures : Nat)
    (queue : List Item) (calls : List RunCall) :
    (∀ m, (job.run ba aa resume).error = some (.attributeError m) →
      retry_loop job ba aa sa resume failures queue calls
        = ⟨.error (.attributeError m), calls ++ [⟨ba, aa, resume⟩],
           queue ++ (job.run ba aa resume).pushed⟩) ∧
    (∀ e, (job.run ba aa resume).error = some e →
      (∀ m, e ≠ .attributeError m) →
      ((job.has_resuming = false ∨ sa.max_retries ≤ failures + 1) →
        retry_loop job ba aa sa resume failures queue calls
          = ⟨.error e, calls ++ [⟨ba, aa, resume⟩],
             queue ++ (job.run ba aa resume).pushed⟩) ∧
      (job.has_resuming = true → failures + 1 < sa.max_retries →
        retry_loop job ba aa sa resume failures queue calls
          = retry_loop (job.run ba aa resume).job ba aa sa true (failures + 1)
              (queue ++ (job.run ba aa resume).pushed)
              (calls ++ [⟨ba, aa, resume⟩]))) := by
  have hbk : (job.run ba aa resume).job.has_resuming = job.has_resuming := by
    unfold PercevalJob.has_resuming
    rw [run_bklass]
  constructor
  · intro m herr
    rw [retry_loop]
    simp only [herr]
  · intro e herr hne
    constructor
    · intro hstop
      have hcond : (!(job.run ba aa resume).job.has_resuming
          || decide (sa.max_retries ≤ failures + 1)) = true := by
        rw [hbk]
        rcases hstop with h1 | h2
        · simp [h1]
        · simp [h2]
      rw [retry_loop]
      simp only [herr]
      cases e with
      | attributeError m => exact absurd rfl (hne m)
      | notFoundError s => rw [dif_pos hcond]
      | valueError s => rw [dif_pos hcond]
      | other s => rw [dif_pos hcond]
    · intro hres hlt
      have hcond : ¬ ((!(job.run ba aa resume).job.has_resuming
          || decide (sa.max_retries ≤ failures + 1)) = true) := by
        rw [hbk, hres]
        simp
        omega
      rw [retry_loop]
      simp only [herr]
      cases e with
      | attributeError m => exact absurd rfl (hne m)
      | notFoundError s => rw [dif_neg hcond]
      | valueError s => rw [dif_neg hcond]
      | other s => rw [dif_neg hcond]

/-- Backend fixture that raises AttributeError (missing required arguments). -/
def bkAttrErr : Backend :=
  { has_archiving := true, has_resuming := true,
    fetch := fun _ _ => ([], some (.attributeError "missing arguments")),
    fetch_from_archive := fun _ _ _ _ => ([], none) }

/-- Job fixture wired to bkAttrErr. -/
def jobAttr : PercevalJob :=
  { job_id := "j1", task_id := "t1", backend := "git", category := "commit",
    bklass := bkAttrErr, qitems := "items", retries := 0,
    archive_manager := none,
    result := { job_id := "j1", task_id := "t1", backend := "git",
                category := "commit", last_uuid := none, max_date := none,
                nitems := 0, offset := none, nresumed := 0 } }

/-- Witness for C1: an AttributeError on the first attempt is re-raised
without any retry, although the backend can resume and budget remains. -/
theorem C1_witness :
    retry_loop jobAttr baX none saX false 0 [] []
      = ⟨.error (.attributeError "missing arguments"),
         [⟨baX, none, false⟩], []⟩ := by
  have h := (C1_retry_policy jobAttr baX none saX false 0 [] []).1
    "missing arguments" rfl
  exact h

end Arthur
